import Mathlib

/-!
Verification development for the db-gen-mcp core: the dialect-aware SQL
query builder (src/query/builder.ts) and the connection pool manager
(src/database/pool.ts).

Strings are modelled as `List Char`.  TypeScript `number` values that the
builder interpolates into SQL text (limit/offset) are modelled as `Int`
(all claims concern integer-valued numbers).  Thrown JavaScript errors are
modelled with `Except`.
-/

namespace DbGen

/-- The five supported dialects (src/types/index.ts, `DatabaseType`). -/
inductive DatabaseType where
  | mysql
  | postgresql
  | mssql
  | oracle
  | sqlite
deriving DecidableEq

/-- A scalar query parameter (src/types/adapters.ts, `QueryParameter`):
string, number, boolean or null.  `Date` and `Buffer` values are opaque
to the builder and are not needed by any claim. -/
inductive Prim where
  | pint (n : Int)
  | pstr (s : List Char)
  | pbool (b : Bool)
  | pnull
deriving DecidableEq

/-- The runtime value carried by a `QueryCondition.value` field:
absent (`undefined`), a scalar, or an array of scalars.  `Array.isArray`
in the source distinguishes the `arr` case. -/
inductive CondValue where
  | undef
  | prim (p : Prim)
  | arr (l : List Prim)
deriving DecidableEq

/-- The fixed operator enumeration (src/types/query.ts, `QueryOperator`). -/
inductive QueryOperator where
  | opEq | opNe | opNeAlt | opGt | opLt | opGe | opLe
  | opLike | opNotLike | opIlike | opNotIlike
  | opIn | opNotIn
  | opIsNull | opIsNotNull
  | opExists | opNotExists
  | opBetween | opNotBetween
  | opRegexp | opNotRegexp
deriving DecidableEq

/-- The literal SQL text of each operator, exactly the TypeScript string
union member that the builder splices into the fragment. -/
def QueryOperator.render : QueryOperator → List Char
  | .opEq => "=".toList
  | .opNe => "!=".toList
  | .opNeAlt => "<>".toList
  | .opGt => ">".toList
  | .opLt => "<".toList
  | .opGe => ">=".toList
  | .opLe => "<=".toList
  | .opLike => "LIKE".toList
  | .opNotLike => "NOT LIKE".toList
  | .opIlike => "ILIKE".toList
  | .opNotIlike => "NOT ILIKE".toList
  | .opIn => "IN".toList
  | .opNotIn => "NOT IN".toList
  | .opIsNull => "IS NULL".toList
  | .opIsNotNull => "IS NOT NULL".toList
  | .opExists => "EXISTS".toList
  | .opNotExists => "NOT EXISTS".toList
  | .opBetween => "BETWEEN".toList
  | .opNotBetween => "NOT BETWEEN".toList
  | .opRegexp => "REGEXP".toList
  | .opNotRegexp => "NOT REGEXP".toList

/-- One WHERE/HAVING predicate (src/types/query.ts, `QueryCondition`).
The `logicalOperator` field is never read by the builder and is omitted. -/
structure QueryCondition where
  field : List Char
  operator : QueryOperator
  value : CondValue
deriving DecidableEq

/-- One SELECT list entry (src/types/query.ts, `SelectField`).  The
`aggregate` and `distinct` members are never read by `build()`. -/
structure SelectField where
  field : List Char
  aliasName : Option (List Char)
deriving DecidableEq

/-- Join kinds (src/types/query.ts, `JoinType`). -/
inductive JoinType where
  | inner | left | right | full | cross
deriving DecidableEq

/-- The literal text of a join type. -/
def JoinType.render : JoinType → List Char
  | .inner => "INNER".toList
  | .left => "LEFT".toList
  | .right => "RIGHT".toList
  | .full => "FULL".toList
  | .cross => "CROSS".toList

/-- One JOIN clause (src/types/query.ts, `JoinCondition`); the `on`
expression is spliced verbatim. -/
structure JoinCondition where
  type : JoinType
  table : List Char
  aliasName : Option (List Char)
  onExpr : List Char
deriving DecidableEq

/-- Sort direction (src/types/query.ts, `SortDirection`). -/
inductive SortDirection where
  | asc | desc
deriving DecidableEq

/-- The literal text of a sort direction. -/
def SortDirection.render : SortDirection → List Char
  | .asc => "ASC".toList
  | .desc => "DESC".toList

/-- One ORDER BY clause (src/types/query.ts, `OrderCondition`). -/
structure OrderCondition where
  field : List Char
  direction : SortDirection
deriving DecidableEq

/-- Errors thrown synchronously by `build()` and its helpers.
`dbError code` stands for a thrown `DatabaseError` object with that
`code` (category QUERY, level HIGH; message and timestamp omitted).
`invalidIdentifier id` stands for the thrown
`Error("Invalid identifier: ... cannot be empty after sanitization")`
carrying the offending identifier, and `arityError op` for the thrown
`Error("<op> requires an array value" / "... exactly two values")`. -/
inductive BuildError where
  | dbError (code : List Char)
  | invalidIdentifier (identifier : List Char)
  | arityError (operator : QueryOperator)
deriving DecidableEq

deriving instance DecidableEq for Except

/-- Characters kept by the sanitizer regex replace `/[^\w\$.]/g` in
`escapeIdentifier`: ASCII letters, digits, underscore, dollar and dot. -/
def isIdentChar (c : Char) : Bool :=
  c.isAlphanum || c = '_' || c = '$' || c = '.'

/-- Whether `pat` is a prefix of `s` (character-exact). -/
def isPrefixSeq : List Char → List Char → Bool
  | [], _ => true
  | _ :: _, [] => false
  | p :: ps, c :: cs => p = c && isPrefixSeq ps cs

/-- Whether `pat` occurs contiguously inside `s`; models
`String.prototype.includes`. -/
def containsSeq (pat : List Char) : List Char → Bool
  | [] => pat.isEmpty
  | c :: rest => isPrefixSeq pat (c :: rest) || containsSeq pat rest

/-- Models `identifier.toLowerCase().includes(' as ')` (ASCII case
mapping; the claims only involve ASCII identifiers). -/
def hasAsToken (s : List Char) : Bool :=
  containsSeq (" as ".toList) (s.map Char.toLower)

/-- Models `String.prototype.split('.')` on character lists. -/
def splitOnDot : List Char → List (List Char)
  | [] => [[]]
  | c :: rest =>
    if c = '.' then [] :: splitOnDot rest
    else
      match splitOnDot rest with
      | h :: t => (c :: h) :: t
      | [] => [[c]]

/-- The per-dialect quoting switch at the end of `escapeIdentifier`
(builder.ts lines 280-293): backtick for mysql/sqlite (and the default
branch), double quote for postgresql, brackets for mssql, upper-cased
double quote for oracle. -/
def wrapIdent (d : DatabaseType) (cleaned : List Char) : List Char :=
  match d with
  | .mysql => "`".toList ++ cleaned ++ "`".toList
  | .postgresql => "\"".toList ++ cleaned ++ "\"".toList
  | .mssql => "[".toList ++ cleaned ++ "]".toList
  | .oracle => "\"".toList ++ cleaned.map Char.toUpper ++ "\"".toList
  | .sqlite => "`".toList ++ cleaned ++ "`".toList

/-- `QueryBuilder.escapeIdentifier` (builder.ts lines 256-294).
The source recurses into `escapeIdentifier` on each dot-separated part of
the sanitized string; every such part is already sanitized, is not `*`,
contains no `(`, no space (hence no " as " token) and no dot, so on parts
the recursive call reduces to the emptiness check followed by the dialect
wrap, which is how the dotted branch is written here.  The source's
`!cleaned || cleaned.trim() === ''` test is `cleaned.isEmpty` because the
sanitizer has already removed every whitespace character. -/
def escapeIdentifier (d : DatabaseType) (identifier : List Char) :
    Except BuildError (List Char) :=
  if identifier = "*".toList then .ok ("*".toList)
  else if identifier.contains '(' || hasAsToken identifier then .ok identifier
  else
    let cleaned := identifier.filter isIdentChar
    if cleaned.isEmpty then .error (.invalidIdentifier identifier)
    else if cleaned.contains '.' then
      ((splitOnDot cleaned).mapM fun (part : List Char) =>
        if part.isEmpty then Except.error (BuildError.invalidIdentifier part)
        else Except.ok (wrapIdent d part)).map
        (fun parts => List.intercalate (".".toList) parts)
    else .ok (wrapIdent d cleaned)

/-- `QueryBuilder.getParameterPlaceholder` (builder.ts lines 243-254). -/
def getParameterPlaceholder (d : DatabaseType) (index : Nat) : List Char :=
  match d with
  | .postgresql => "$".toList ++ (Nat.repr index).toList
  | .mssql => "@param".toList ++ (Nat.repr index).toList
  | .oracle => ":param".toList ++ (Nat.repr index).toList
  | _ => "?".toList

/-- The body of the `conditions.map` callback in
`QueryBuilder.buildConditions` (builder.ts lines 208-239): renders one
condition's fragment and returns the parameter list with this condition's
bound values pushed.  Note that in the IN / NOT IN branch the source
computes every placeholder from `params.length + 1` before pushing any
value, so all elements of one IN list receive the same index. -/
def condFragment (d : DatabaseType) (c : QueryCondition)
    (params : List CondValue) :
    Except BuildError (List Char × List CondValue) := do
  let field ← escapeIdentifier d c.field
  match c.operator with
  | .opIsNull =>
    pure (field ++ " ".toList ++ c.operator.render, params)
  | .opIsNotNull =>
    pure (field ++ " ".toList ++ c.operator.render, params)
  | .opIn =>
    match c.value with
    | .arr vs =>
      let placeholders := List.intercalate (", ".toList)
        (vs.map fun _ => getParameterPlaceholder d (params.length + 1))
      pure (field ++ " ".toList ++ c.operator.render ++ " (".toList ++
        placeholders ++ ")".toList, params ++ vs.map CondValue.prim)
    | _ => .error (.arityError c.operator)
  | .opNotIn =>
    match c.value with
    | .arr vs =>
      let placeholders := List.intercalate (", ".toList)
        (vs.map fun _ => getParameterPlaceholder d (params.length + 1))
      pure (field ++ " ".toList ++ c.operator.render ++ " (".toList ++
        placeholders ++ ")".toList, params ++ vs.map CondValue.prim)
    | _ => .error (.arityError c.operator)
  | .opBetween =>
    match c.value with
    | .arr [a, b] =>
      let placeholder1 := getParameterPlaceholder d (params.length + 1)
      let placeholder2 := getParameterPlaceholder d (params.length + 2)
      pure (field ++ " ".toList ++ c.operator.render ++ " ".toList ++
        placeholder1 ++ " AND ".toList ++ placeholder2,
        params ++ [CondValue.prim a, CondValue.prim b])
    | _ => .error (.arityError c.operator)
  | .opNotBetween =>
    match c.value with
    | .arr [a, b] =>
      let placeholder1 := getParameterPlaceholder d (params.length + 1)
      let placeholder2 := getParameterPlaceholder d (params.length + 2)
      pure (field ++ " ".toList ++ c.operator.render ++ " ".toList ++
        placeholder1 ++ " AND ".toList ++ placeholder2,
        params ++ [CondValue.prim a, CondValue.prim b])
    | _ => .error (.arityError c.operator)
  | op =>
    let placeholder := getParameterPlaceholder d (params.length + 1)
    pure (field ++ " ".toList ++ op.render ++ " ".toList ++ placeholder,
      params ++ [c.value])

/-- Renders every condition in order, threading the shared parameter
list through the fragments exactly as the mutated `params` array is. -/
def buildConditionsAux (d : DatabaseType) :
    List QueryCondition → List CondValue →
    Except BuildError (List (List Char) × List CondValue)
  | [], params => .ok ([], params)
  | c :: rest, params => do
    let (frag, params') ← condFragment d c params
    let (frags, params'') ← buildConditionsAux d rest params'
    pure (frag :: frags, params'')

/-- `QueryBuilder.buildConditions` (builder.ts lines 207-241): the
AND-joined predicate together with the grown parameter list. -/
def buildConditions (d : DatabaseType) (conditions : List QueryCondition)
    (params : List CondValue) :
    Except BuildError (List Char × List CondValue) :=
  (buildConditionsAux d conditions params).map fun r =>
    (List.intercalate (" AND ".toList) r.1, r.2)

/-- JavaScript truthiness on an optional string: the empty string is
falsy, so an alias that is present but empty behaves as absent in the
`field.alias ?`, `this.fromAlias`, `join.alias` checks. -/
def optTruthy : Option (List Char) → Option (List Char)
  | some a => if a.isEmpty then none else some a
  | none => none

/-- Decimal rendering of the integer-valued numbers the builder splices
into SQL text via template literals. -/
def intRepr (n : Int) : List Char :=
  (Int.repr n).toList

/-- The private mutable fields of a `QueryBuilder` instance
(builder.ts lines 18-31). -/
structure QueryBuilderState where
  selectFields : List SelectField
  fromTable : List Char
  fromAlias : Option (List Char)
  whereConditions : List QueryCondition
  joinClauses : List JoinCondition
  orderClauses : List OrderCondition
  limitValue : Option Int
  offsetValue : Option Int
  groupByFields : List (List Char)
  havingConditions : List QueryCondition
  distinctFlag : Bool
  forUpdateFlag : Bool
deriving DecidableEq

/-- The field initializers of a freshly constructed `QueryBuilder`. -/
def initialBuilder : QueryBuilderState where
  selectFields := [⟨"*".toList, none⟩]
  fromTable := []
  fromAlias := none
  whereConditions := []
  joinClauses := []
  orderClauses := []
  limitValue := none
  offsetValue := none
  groupByFields := []
  havingConditions := []
  distinctFlag := false
  forUpdateFlag := false

/-- `select` with a `string[]` argument (builder.ts lines 34-43). -/
def QueryBuilderState.select (s : QueryBuilderState)
    (fields : List (List Char)) : QueryBuilderState :=
  { s with selectFields := fields.map fun f => ⟨f, none⟩ }

/-- `from(table, alias?)` (builder.ts lines 472-476). -/
def QueryBuilderState.fromT (s : QueryBuilderState) (table : List Char)
    (a : Option (List Char)) : QueryBuilderState :=
  { s with fromTable := table, fromAlias := a }

/-- `where(field, operator, value?)` (builder.ts lines 45-48). -/
def QueryBuilderState.whereC (s : QueryBuilderState) (field : List Char)
    (operator : QueryOperator) (value : CondValue) : QueryBuilderState :=
  { s with whereConditions := s.whereConditions ++ [⟨field, operator, value⟩] }

/-- `having(field, operator, value?)` (builder.ts lines 92-95). -/
def QueryBuilderState.havingC (s : QueryBuilderState) (field : List Char)
    (operator : QueryOperator) (value : CondValue) : QueryBuilderState :=
  { s with havingConditions := s.havingConditions ++ [⟨field, operator, value⟩] }

/-- `limit(count)` (builder.ts lines 97-100). -/
def QueryBuilderState.limit (s : QueryBuilderState) (count : Int) :
    QueryBuilderState :=
  { s with limitValue := some count }

/-- `offset(count)` (builder.ts lines 102-105). -/
def QueryBuilderState.offset (s : QueryBuilderState) (count : Int) :
    QueryBuilderState :=
  { s with offsetValue := some count }

/-- The SELECT clause of `build()` (builder.ts lines 112-117). -/
def selectSegment (d : DatabaseType) (s : QueryBuilderState) :
    Except BuildError (List Char) := do
  let fields ← s.selectFields.mapM fun f =>
    match optTruthy f.aliasName with
    | some a => do
      let e ← escapeIdentifier d f.field
      let ea ← escapeIdentifier d a
      pure (e ++ " AS ".toList ++ ea)
    | none => escapeIdentifier d f.field
  pure ("SELECT ".toList ++
    (if s.distinctFlag then "DISTINCT ".toList else []) ++
    List.intercalate (", ".toList) fields)

/-- The FROM clause of `build()` (builder.ts lines 130-133), rendered
after the missing-table check has passed. -/
def fromSegment (d : DatabaseType) (s : QueryBuilderState) :
    Except BuildError (List Char) := do
  let t ← escapeIdentifier d s.fromTable
  match optTruthy s.fromAlias with
  | some a => do
    let ea ← escapeIdentifier d a
    pure (" FROM ".toList ++ t ++ " AS ".toList ++ ea)
  | none => pure (" FROM ".toList ++ t)

/-- The JOIN clauses of `build()` (builder.ts lines 136-142). -/
def joinSegment (d : DatabaseType) (s : QueryBuilderState) :
    Except BuildError (List Char) := do
  let parts ← s.joinClauses.mapM fun j => do
    let t ← escapeIdentifier d j.table
    let aliasPart ←
      match optTruthy j.aliasName with
      | some a => do
        let ea ← escapeIdentifier d a
        pure (" AS ".toList ++ ea)
      | none => pure ([] : List Char)
    pure (" ".toList ++ j.type.render ++ " JOIN ".toList ++ t ++
      aliasPart ++ " ON ".toList ++ j.onExpr)
  pure parts.flatten

/-- The WHERE clause of `build()` (builder.ts lines 145-148): empty when
there are no conditions, otherwise the rendered clause together with the
parameters it pushed (the `params` array is empty at this point). -/
def whereSegment (d : DatabaseType) (s : QueryBuilderState) :
    Except BuildError (List Char × List CondValue) :=
  if s.whereConditions.isEmpty then .ok ([], [])
  else (buildConditions d s.whereConditions []).map fun r =>
    (" WHERE ".toList ++ r.1, r.2)

/-- The GROUP BY clause of `build()` (builder.ts lines 151-153). -/
def groupSegment (d : DatabaseType) (s : QueryBuilderState) :
    Except BuildError (List Char) :=
  if s.groupByFields.isEmpty then .ok []
  else
    (s.groupByFields.mapM (escapeIdentifier d)).map fun fields =>
      " GROUP BY ".toList ++ List.intercalate (", ".toList) fields

/-- The HAVING clause of `build()` (builder.ts lines 156-159): it grows
the same `params` array the WHERE clause filled. -/
def havingSegment (d : DatabaseType) (s : QueryBuilderState)
    (params : List CondValue) :
    Except BuildError (List Char × List CondValue) :=
  if s.havingConditions.isEmpty then .ok ([], params)
  else (buildConditions d s.havingConditions params).map fun r =>
    (" HAVING ".toList ++ r.1, r.2)

/-- The ORDER BY clause of `build()` (builder.ts lines 162-167). -/
def orderSegment (d : DatabaseType) (s : QueryBuilderState) :
    Except BuildError (List Char) :=
  if s.orderClauses.isEmpty then .ok []
  else
    (s.orderClauses.mapM fun o =>
      (escapeIdentifier d o.field).map fun e =>
        e ++ " ".toList ++ o.direction.render).map fun parts =>
      " ORDER BY ".toList ++ List.intercalate (", ".toList) parts

/-- The LIMIT / OFFSET clause of `build()` (builder.ts lines 169-191):
only the mssql dialect is special-cased to the OFFSET/FETCH shape; every
other dialect, oracle included, falls into the LIMIT/OFFSET branch. -/
def paginationSegment (d : DatabaseType) (s : QueryBuilderState) :
    List Char :=
  match s.limitValue with
  | some lim =>
    if d = .mssql then
      match s.offsetValue with
      | some off =>
        " OFFSET ".toList ++ intRepr off ++ " ROWS FETCH NEXT ".toList ++
          intRepr lim ++ " ROWS ONLY".toList
      | none =>
        " OFFSET 0 ROWS FETCH NEXT ".toList ++ intRepr lim ++
          " ROWS ONLY".toList
    else
      " LIMIT ".toList ++ intRepr lim ++
        (match s.offsetValue with
         | some off => " OFFSET ".toList ++ intRepr off
         | none => [])
  | none =>
    match s.offsetValue with
    | some off =>
      if d = .mssql then " OFFSET ".toList ++ intRepr off ++ " ROWS".toList
      else " OFFSET ".toList ++ intRepr off
    | none => []

/-- The FOR UPDATE clause of `build()` (builder.ts lines 194-198):
silently omitted for sqlite. -/
def forUpdateSegment (d : DatabaseType) (s : QueryBuilderState) :
    List Char :=
  if s.forUpdateFlag then
    if d = .sqlite then [] else " FOR UPDATE".toList
  else []

/-- The value returned by `build()` (src/types/query.ts,
`QueryBuildResult`).  The builder never appends to `warnings`, so the
returned `warnings` member is always `undefined` (`none`). -/
structure QueryBuildResult where
  query : List Char
  params : List CondValue
  warnings : Option (List (List Char))
deriving DecidableEq

/-- `QueryBuilder.build` (builder.ts lines 107-205): renders the clauses
in source order and threads the shared `params` array through the WHERE
and HAVING clauses.  The SELECT clause is rendered before the
missing-FROM check, exactly as in the source. -/
def build (d : DatabaseType) (s : QueryBuilderState) :
    Except BuildError QueryBuildResult := do
  let sel ← selectSegment d s
  if s.fromTable.isEmpty then
    .error (.dbError ("MISSING_FROM_TABLE".toList))
  else do
    let fr ← fromSegment d s
    let jn ← joinSegment d s
    let wh ← whereSegment d s
    let gb ← groupSegment d s
    let hv ← havingSegment d s wh.2
    let ob ← orderSegment d s
    pure ⟨sel ++ fr ++ jn ++ wh.1 ++ gb ++ hv.1 ++ ob ++
      paginationSegment d s ++ forUpdateSegment d s, hv.2, none⟩

/-- The dialect name as it appears in a `DatabaseConfig.type` string. -/
def typeName : DatabaseType → List Char
  | .mysql => "mysql".toList
  | .postgresql => "postgresql".toList
  | .mssql => "mssql".toList
  | .oracle => "oracle".toList
  | .sqlite => "sqlite".toList

/-- The connection-target fields read by the pool
(src/types/index.ts, `DatabaseConfig`).  The optional string members are
modelled as the text the key template interpolates (an absent member
renders as the text `undefined` in JavaScript). -/
structure DatabaseConfig where
  type : DatabaseType
  host : List Char
  port : Int
  database : List Char
  username : List Char
deriving DecidableEq

/-- `ConnectionPoolManager.getConfigKey` (pool.ts lines 26-28). -/
def getConfigKey (c : DatabaseConfig) : List Char :=
  typeName c.type ++ "://".toList ++ c.username ++ "@".toList ++ c.host ++
    ":".toList ++ intRepr c.port ++ "/".toList ++ c.database

/-- One pool entry (pool.ts lines 7-12).  `adapterId` stands for the
object identity of the `adapter` handle; `lastUsed` is the
`Date.getTime()` millisecond stamp. -/
structure PooledConnection where
  adapterId : Nat
  lastUsed : Nat
  inUse : Bool
  connectionCount : Nat
deriving DecidableEq

/-- `MAX_POOL_SIZE` (pool.ts line 16). -/
def MAX_POOL_SIZE : Nat := 10

/-- `MAX_IDLE_TIME` in milliseconds (pool.ts line 17). -/
def MAX_IDLE_TIME : Nat := 30 * 60 * 1000

/-- The static state of `ConnectionPoolManager`: the `pools` registry
(a `Map`, modelled as an association list with unique keys in insertion
order) and whether the cleanup timer is running. -/
structure PoolState where
  pools : List (List Char × List PooledConnection)
  cleanupTimer : Bool
deriving DecidableEq

/-- The registry at class-initialization time: no pools, timer started
by the static block (pool.ts lines 21-24). -/
def initialPoolState : PoolState := ⟨[], true⟩

/-- `pools.get(key)` on the association list. -/
def lookupPool : List (List Char × List PooledConnection) → List Char →
    Option (List PooledConnection)
  | [], _ => none
  | kp :: rest, key => if kp.1 = key then some kp.2 else lookupPool rest key

/-- The pool stored under `key`, defaulting to the empty pool. -/
def getPool (s : PoolState) (key : List Char) : List PooledConnection :=
  (lookupPool s.pools key).getD []

/-- Whether the registry holds a binding for `key`. -/
def hasPoolKey : List (List Char × List PooledConnection) → List Char → Bool
  | [], _ => false
  | kp :: rest, key => if kp.1 = key then true else hasPoolKey rest key

/-- Rewrites the (unique) binding for `key` in place, leaving every other
binding untouched; the identity when `key` is absent. -/
def updateFirstPool (key : List Char)
    (f : List PooledConnection → List PooledConnection) :
    List (List Char × List PooledConnection) →
    List (List Char × List PooledConnection)
  | [] => []
  | kp :: rest =>
    if kp.1 = key then (kp.1, f kp.2) :: rest
    else kp :: updateFirstPool key f rest

/-- `pools.set(key, pool)`: overwrite the existing binding or append a
new one (a JavaScript `Map` keeps insertion order). -/
def setPool (s : PoolState) (key : List Char)
    (pool : List PooledConnection) : PoolState :=
  if hasPoolKey s.pools key then
    { s with pools := updateFirstPool key (fun _ => pool) s.pools }
  else
    { s with pools := s.pools ++ [(key, pool)] }

/-- `pool.find(conn => !conn.inUse)` together with the surrounding
entries: the entries before the first idle one, that entry, and the rest.
`none` when every entry is in use. -/
def firstIdleSplit : List PooledConnection →
    Option (List PooledConnection × PooledConnection × List PooledConnection)
  | [] => none
  | c :: rest =>
    if c.inUse then
      match firstIdleSplit rest with
      | some (pre, x, post) => some (c :: pre, x, post)
      | none => none
    else some ([], c, rest)

/-- Marking an entry checked out (pool.ts lines 46-48 and 207-209):
`inUse = true`, stamp `lastUsed`, increment `connectionCount`. -/
def markInUse (c : PooledConnection) (now : Nat) : PooledConnection :=
  { c with inUse := true, lastUsed := now, connectionCount := c.connectionCount + 1 }

/-- A fresh entry for a just-connected adapter (pool.ts lines 68-73). -/
def newEntry (freshId now : Nat) : PooledConnection :=
  ⟨freshId, now, true, 1⟩

/-- The outcome of one `getConnection` call: the returned adapter, the
thrown `POOL_CONNECTION_FAILED` connection error, or the thrown
`POOL_TIMEOUT` connection error. -/
inductive AcquireResult where
  | acquired (adapterId : Nat)
  | connectionFailed
  | timedOut
deriving DecidableEq

/-- `ConnectionPoolManager.getConnection` (pool.ts lines 30-94) as one
atomic step.  The adapter I/O outcomes are inputs: `healthy` is the
health-check verdict on the idle entry the scan found (`success` and
`status === 'healthy'`), `connectOk` whether `adapter.connect()`
succeeds, and `freshId` the identity of the adapter the factory would
create.  The registry binding created by `pools.set(key, [])` for an
absent key persists on every path.  When the pool is full with no idle
entry the source polls in `waitForAvailableConnection`; run as one
sequential step no release can happen during the wait, so that path
returns the `POOL_TIMEOUT` error with the registry unchanged. -/
def acquireStep (cfg : DatabaseConfig) (healthy connectOk : Bool)
    (now freshId : Nat) (s : PoolState) : PoolState × AcquireResult :=
  let key := getConfigKey cfg
  let pool := getPool s key
  match firstIdleSplit pool with
  | some (pre, c, post) =>
    if healthy then
      (setPool s key (pre ++ markInUse c now :: post), .acquired c.adapterId)
    else
      let pool' := pre ++ post
      if pool'.length < MAX_POOL_SIZE then
        if connectOk then
          (setPool s key (pool' ++ [newEntry freshId now]), .acquired freshId)
        else (setPool s key pool', .connectionFailed)
      else (setPool s key pool', .timedOut)
  | none =>
    if pool.length < MAX_POOL_SIZE then
      if connectOk then
        (setPool s key (pool ++ [newEntry freshId now]), .acquired freshId)
      else (setPool s key pool, .connectionFailed)
    else (setPool s key pool, .timedOut)

/-- The in-pool part of `releaseConnection` (pool.ts lines 100-107):
mark the first entry whose adapter is identical to the released one idle
and stamp `lastUsed`; no match leaves the pool as it was. -/
def releaseInPool (aid now : Nat) :
    List PooledConnection → List PooledConnection
  | [] => []
  | c :: rest =>
    if c.adapterId = aid then
      { c with inUse := false, lastUsed := now } :: rest
    else c :: releaseInPool aid now rest

/-- `ConnectionPoolManager.releaseConnection` (pool.ts lines 96-108). -/
def releaseConnection (cfg : DatabaseConfig) (aid now : Nat)
    (s : PoolState) : PoolState :=
  let pools' := updateFirstPool (getConfigKey cfg) (releaseInPool aid now)
    s.pools
  { s with pools := pools' }

/-- `ConnectionPoolManager.cleanup` (pool.ts lines 110-146): disconnect
and remove every idle entry of every pool (in-use entries are skipped by
the `!connection.inUse` guard), drop bindings left empty, and clear the
cleanup timer.  Disconnect calls are modelled as succeeding; a failing
disconnect would additionally keep its idle entry. -/
def cleanup (s : PoolState) : PoolState :=
  ⟨(s.pools.map fun kp => (kp.1, kp.2.filter fun c => c.inUse)).filter
      (fun kp => !kp.2.isEmpty),
    false⟩

/-- Whether the idle-eviction sweep keeps an entry: it is in use, or its
idle time `now - lastUsed` has not exceeded `MAX_IDLE_TIME`
(pool.ts lines 243-255; `Date` arithmetic on millisecond stamps). -/
def sweepKeeps (now : Nat) (c : PooledConnection) : Bool :=
  c.inUse || decide (now - c.lastUsed ≤ MAX_IDLE_TIME)

/-- `ConnectionPoolManager.cleanupIdleConnections` (pool.ts lines
237-270): the recurring eviction sweep.  Disconnects are modelled as
succeeding, as in `cleanup`. -/
def cleanupIdleConnections (now : Nat) (s : PoolState) : PoolState :=
  { s with pools := (s.pools.map fun kp =>
      (kp.1, kp.2.filter (sweepKeeps now))).filter fun kp => !kp.2.isEmpty }

/-- `ConnectionPoolManager.gracefulShutdown` (pool.ts lines 273-301):
stop the cleanup timer, wait up to 30 s for the active-connection count
to reach zero, then call `cleanup()`.  The wait loop only reads
`getPoolStatistics()` and sleeps; with no concurrent release it leaves
the registry untouched and exits either early (no active entries) or at
the 30 s bound, so the step semantics is `cleanup` after stopping the
timer. -/
def gracefulShutdown (s : PoolState) : PoolState :=
  cleanup { s with cleanupTimer := false }

/-- `ConnectionPoolManager.waitForAvailableConnection` (pool.ts lines
195-225).  The argument lists the value of `pools.get(key)` observed at
each 100 ms poll; its length is the number of polls that fit in the
30 000 ms timeout.  Finding an idle entry claims it and returns the
updated pool with the claimed adapter's identity; exhausting the polls
throws the connection error with code `POOL_TIMEOUT`, modelled by that
code. -/
def waitForAvailableConnection (now : Nat) :
    List (Option (List PooledConnection)) →
    Except (List Char) (List PooledConnection × Nat)
  | [] => .error ("POOL_TIMEOUT".toList)
  | obs :: rest =>
    match obs with
    | some pool =>
      match firstIdleSplit pool with
      | some (pre, c, post) => .ok (pre ++ markInUse c now :: post, c.adapterId)
      | none => waitForAvailableConnection now rest
    | none => waitForAvailableConnection now rest

/-- One pool operation, run to completion (the sequential model: each
public entry point of `ConnectionPoolManager` is one atomic step). -/
inductive PoolOp where
  | acquire (cfg : DatabaseConfig) (healthy connectOk : Bool) (now freshId : Nat)
  | release (cfg : DatabaseConfig) (adapterId now : Nat)
  | sweep (now : Nat)
  | cleanupOp
  | shutdown

/-- The state transition of one pool operation. -/
def applyOp (s : PoolState) : PoolOp → PoolState
  | .acquire cfg h c now fid => (acquireStep cfg h c now fid s).1
  | .release cfg aid now => releaseConnection cfg aid now s
  | .sweep now => cleanupIdleConnections now s
  | .cleanupOp => cleanup s
  | .shutdown => gracefulShutdown s

/-- Runs a sequence of pool operations from the initial registry. -/
def runOps (ops : List PoolOp) : PoolState :=
  ops.foldl applyOp initialPoolState

/-- The capacity invariant of the registry: no pool holds more than
`MAX_POOL_SIZE` entries. -/
def sizeInv (s : PoolState) : Prop :=
  ∀ kp ∈ s.pools, kp.2.length ≤ MAX_POOL_SIZE

/-- Whether one polled observation of `pools.get(key)` shows no idle
entry: the pool is absent or every entry is in use. -/
def noIdleObs : Option (List PooledConnection) → Bool
  | none => true
  | some pool => pool.all fun c => c.inUse

/-- A concrete connection target used to instantiate the pool theorems. -/
def cfgW : DatabaseConfig :=
  ⟨.mysql, "h".toList, 1, "db".toList, "u".toList⟩

/-- A concrete registry with one pool of two in-use entries under the
fingerprint of `cfgW`, used to instantiate the pool theorems. -/
def stateW : PoolState :=
  ⟨[("mysql://u@h:1/db".toList, [⟨1, 0, true, 1⟩, ⟨2, 0, true, 1⟩])], true⟩

/-! Theorems. -/

/-- C2: for the postgresql dialect, the chain
`select(['id','name']).from('users').where('age','>',18).limit(10).offset(5)`
followed by `build()` yields exactly
`SELECT "id", "name" FROM "users" WHERE "age" > $1 LIMIT 10 OFFSET 5`
with params `[18]` (and no warnings). -/
theorem claim_C2_postgresql_example :
    build .postgresql (((((initialBuilder.select
        ["id".toList, "name".toList]).fromT ("users".toList) none).whereC
        ("age".toList) .opGt (.prim (.pint 18))).limit 10).offset 5) =
      .ok ⟨"SELECT \"id\", \"name\" FROM \"users\" WHERE \"age\" > $1 LIMIT 10 OFFSET 5".toList,
        [.prim (.pint 18)], none⟩ := by decide

/-- C1, evaluation at the failing input: for the mssql dialect a single
`IN` condition with the two-element array value `[1, 2]` renders the
fragment `[f] IN (@param1, @param1)` — both placeholders carry index 1
because `buildConditions` computes every placeholder of an IN list from
`params.length + 1` before pushing any value — while `params` receives
the two entries `[1, 2]`.  The second placeholder of the query therefore
does not correspond to the second entry of `params`, contrary to the
claimed invariant (which would require `(@param1, @param2)`). -/
theorem claim_C1_in_placeholders_repeat_index :
    build .mssql ((initialBuilder.fromT ("t".toList) none).whereC
        ("f".toList) .opIn (.arr [.pint 1, .pint 2])) =
      .ok ⟨"SELECT * FROM [t] WHERE [f] IN (@param1, @param1)".toList,
        [.prim (.pint 1), .prim (.pint 2)], none⟩ := by decide

/-- C3, evaluation at the failing input: for the oracle dialect with
`limit(10)` and `offset(5)` set, `build()` renders the pagination clause
as `LIMIT 10 OFFSET 5`, not as `OFFSET 5 ROWS FETCH NEXT 10 ROWS ONLY`:
only mssql is special-cased to the OFFSET/FETCH shape. -/
theorem claim_C3_oracle_renders_limit_offset :
    build .oracle (((initialBuilder.fromT ("t".toList) none).limit 10).offset
        5) =
      .ok ⟨"SELECT * FROM \"T\" LIMIT 10 OFFSET 5".toList, [], none⟩ := by
  decide

/-- C4, evaluation at the failing input: acquire one connection (so its
entry has `inUse = true`) and never release it; graceful shutdown then
leaves that entry in the registry untouched apart from the stopped
timer, because `cleanup()` skips every in-use entry — the registry is
not empty and the in-use entry is neither disconnected nor removed. -/
theorem claim_C4_shutdown_keeps_in_use_entry :
    gracefulShutdown (runOps [.acquire
        ⟨.mysql, "h".toList, 1, "db".toList, "u".toList⟩ true true 0 1]) =
      ⟨[("mysql://u@h:1/db".toList, [⟨1, 0, true, 1⟩])], false⟩ := by decide

/-- C6, evaluation at the failing input: for the postgresql dialect a
single `IN` condition with array value `[1, 2]` makes `build()` emit the
query `... WHERE "f" IN ($1, $1)` with two params — the placeholder
indices appearing in the query are `1, 1`, not strictly increasing and
contiguous (`1, 2`) as claimed. -/
theorem claim_C6_pg_in_indices_not_increasing :
    build .postgresql ((initialBuilder.fromT ("t".toList) none).whereC
        ("f".toList) .opIn (.arr [.pint 1, .pint 2])) =
      .ok ⟨"SELECT * FROM \"t\" WHERE \"f\" IN ($1, $1)".toList,
        [.prim (.pint 1), .prim (.pint 2)], none⟩ := by decide

/-- Reduction of `Except` bind on a success value. -/
theorem exceptBind_ok {E A B : Type} (a : A) (f : A → Except E B) :
    (Except.ok a >>= f : Except E B) = f a := rfl

/-- Reduction of `Except` bind on an error value. -/
theorem exceptBind_error {E A B : Type} (e : E) (f : A → Except E B) :
    ((Except.error e : Except E A) >>= f) = .error e := rfl

/-- Reduction of `Except` map on a success value. -/
theorem exceptMap_ok {E A B : Type} (f : A → B) (a : A) :
    (f <$> (Except.ok a : Except E A)) = Except.ok (f a) := rfl

/-- Reduction of `Except` map on an error value. -/
theorem exceptMap_error {E A B : Type} (f : A → B) (e : E) :
    (f <$> (Except.error e : Except E A)) = (Except.error e : Except E B) :=
  rfl

/-- A successful registry lookup is a membership. -/
theorem lookupPool_mem {l : List (List Char × List PooledConnection)}
    {key : List Char} {p : List PooledConnection}
    (h : lookupPool l key = some p) : (key, p) ∈ l := by
  induction l with
  | nil => simp [lookupPool] at h
  | cons kp rest ih =>
    unfold lookupPool at h
    by_cases hk : kp.1 = key
    · rw [if_pos hk] at h
      have he : (key, p) = kp := by
        cases kp
        simp_all
      exact he ▸ List.mem_cons_self _ _
    · rw [if_neg hk] at h
      exact List.mem_cons_of_mem _ (ih h)

/-- `firstIdleSplit` returns a genuine decomposition of the pool. -/
theorem firstIdleSplit_some {l pre post : List PooledConnection}
    {c : PooledConnection} (h : firstIdleSplit l = some (pre, c, post)) :
    l = pre ++ c :: post := by
  induction l generalizing pre with
  | nil => simp [firstIdleSplit] at h
  | cons x rest ih =>
    unfold firstIdleSplit at h
    by_cases hx : x.inUse
    · simp only [hx, if_pos] at h
      cases hsplit : firstIdleSplit rest with
      | none => rw [hsplit] at h; simp at h
      | some t =>
        obtain ⟨pre', c', post'⟩ := t
        rw [hsplit] at h
        simp only [Option.some.injEq, Prod.mk.injEq] at h
        obtain ⟨h1, h2, h3⟩ := h
        subst h1 h2 h3
        simp [ih hsplit]
    · simp only [hx, if_neg, Bool.false_eq_true, not_false_iff] at h
      simp only [Option.some.injEq, Prod.mk.injEq] at h
      obtain ⟨h1, h2, h3⟩ := h
      subst h1 h2 h3
      rfl

/-- Every binding after an in-place registry update is an old binding or
the rewritten one. -/
theorem mem_updateFirstPool {key : List Char}
    {f : List PooledConnection → List PooledConnection}
    {l : List (List Char × List PooledConnection)}
    {kp : List Char × List PooledConnection}
    (h : kp ∈ updateFirstPool key f l) :
    kp ∈ l ∨ ∃ kp' ∈ l, kp = (kp'.1, f kp'.2) := by
  induction l with
  | nil => simp [updateFirstPool] at h
  | cons x rest ih =>
    unfold updateFirstPool at h
    by_cases hx : x.1 = key
    · simp only [hx, if_pos rfl] at h
      rcases List.mem_cons.mp h with h1 | h1
      · exact Or.inr ⟨x, List.mem_cons_self _ _, by simp [h1, hx]⟩
      · exact Or.inl (List.mem_cons_of_mem _ h1)
    · simp only [if_neg hx] at h
      rcases List.mem_cons.mp h with h1 | h1
      · exact Or.inl (h1 ▸ List.mem_cons_self _ _)
      · rcases ih h1 with h2 | ⟨kp', hm, he⟩
        · exact Or.inl (List.mem_cons_of_mem _ h2)
        · exact Or.inr ⟨kp', List.mem_cons_of_mem _ hm, he⟩

/-- Releasing never changes the number of entries in a pool. -/
theorem releaseInPool_length (aid now : Nat) :
    ∀ l : List PooledConnection, (releaseInPool aid now l).length = l.length := by
  intro l
  induction l with
  | nil => rfl
  | cons c rest ih =>
    unfold releaseInPool
    by_cases hc : c.adapterId = aid
    · simp [hc]
    · simp [hc, ih]

/-- The pool looked up for any key respects the capacity invariant. -/
theorem getPool_length_le {s : PoolState} (h : sizeInv s)
    (key : List Char) : (getPool s key).length ≤ MAX_POOL_SIZE := by
  unfold getPool
  cases hl : lookupPool s.pools key with
  | none => simp [MAX_POOL_SIZE]
  | some p => simpa using h _ (lookupPool_mem hl)

/-- Overwriting or inserting a pool within capacity keeps the
invariant. -/
theorem sizeInv_setPool {s : PoolState} {key : List Char}
    {pool : List PooledConnection} (h : sizeInv s)
    (hp : pool.length ≤ MAX_POOL_SIZE) : sizeInv (setPool s key pool) := by
  intro kp hkp
  unfold setPool at hkp
  split at hkp
  · simp only at hkp
    rcases mem_updateFirstPool hkp with h1 | ⟨kp', _, he⟩
    · exact h _ h1
    · rw [he]
      simpa using hp
  · simp only at hkp
    rcases List.mem_append.mp hkp with h1 | h1
    · exact h _ h1
    · simp only [List.mem_singleton] at h1
      rw [h1]
      simpa using hp

/-- One `getConnection` step keeps every pool within capacity. -/
theorem sizeInv_acquireStep {s : PoolState} (cfg : DatabaseConfig)
    (hb cb : Bool) (now fid : Nat) (h : sizeInv s) :
    sizeInv (acquireStep cfg hb cb now fid s).1 := by
  unfold acquireStep
  have hpool := getPool_length_le h (getConfigKey cfg)
  cases hsplit : firstIdleSplit (getPool s (getConfigKey cfg)) with
  | some t =>
    obtain ⟨pre, c, post⟩ := t
    have heq := firstIdleSplit_some hsplit
    have hlen : pre.length + post.length + 1 ≤ MAX_POOL_SIZE := by
      rw [heq] at hpool
      simpa [Nat.add_comm, Nat.add_left_comm] using hpool
    simp only [hsplit]
    split
    · apply sizeInv_setPool h
      simp only [List.length_append, List.length_cons]
      omega
    · split
      · split
        · apply sizeInv_setPool h
          rename_i hlt _
          simp only [List.length_append] at hlt ⊢
          simpa using hlt
        · apply sizeInv_setPool h
          simp only [List.length_append]
          omega
      · apply sizeInv_setPool h
        simp only [List.length_append]
        omega
  | none =>
    simp only [hsplit]
    split
    · split
      · apply sizeInv_setPool h
        rename_i hlt _
        simpa using hlt
      · exact sizeInv_setPool h hpool
    · exact sizeInv_setPool h hpool

/-- Every pool operation preserves the capacity invariant. -/
theorem sizeInv_applyOp {s : PoolState} (h : sizeInv s) (op : PoolOp) :
    sizeInv (applyOp s op) := by
  cases op with
  | acquire cfg hb cb now fid => exact sizeInv_acquireStep cfg hb cb now fid h
  | release cfg aid now =>
    intro kp hkp
    simp only [applyOp, releaseConnection] at hkp
    rcases mem_updateFirstPool hkp with h1 | ⟨kp', hm, he⟩
    · exact h _ h1
    · rw [he]
      simpa [releaseInPool_length] using h _ hm
  | sweep now =>
    intro kp hkp
    simp only [applyOp, cleanupIdleConnections] at hkp
    obtain ⟨hmem, -⟩ := List.mem_filter.mp hkp
    obtain ⟨kp', hm, he⟩ := List.mem_map.mp hmem
    rw [← he]
    calc (kp'.2.filter (sweepKeeps now)).length ≤ kp'.2.length :=
          List.length_filter_le _ _
      _ ≤ MAX_POOL_SIZE := h _ hm
  | cleanupOp =>
    intro kp hkp
    simp only [applyOp, cleanup] at hkp
    obtain ⟨hmem, -⟩ := List.mem_filter.mp hkp
    obtain ⟨kp', hm, he⟩ := List.mem_map.mp hmem
    rw [← he]
    calc (kp'.2.filter fun c => c.inUse).length ≤ kp'.2.length :=
          List.length_filter_le _ _
      _ ≤ MAX_POOL_SIZE := h _ hm
  | shutdown =>
    intro kp hkp
    simp only [applyOp, gracefulShutdown, cleanup] at hkp
    obtain ⟨hmem, -⟩ := List.mem_filter.mp hkp
    obtain ⟨kp', hm, he⟩ := List.mem_map.mp hmem
    rw [← he]
    calc (kp'.2.filter fun c => c.inUse).length ≤ kp'.2.length :=
          List.length_filter_le _ _
      _ ≤ MAX_POOL_SIZE := h _ hm

/-- Any operation sequence from the initial registry keeps the
invariant. -/
theorem sizeInv_runOps (ops : List PoolOp) : sizeInv (runOps ops) := by
  unfold runOps
  have h0 : sizeInv initialPoolState := by
    intro kp hkp
    simp [initialPoolState] at hkp
  generalize initialPoolState = s at h0 ⊢
  induction ops generalizing s with
  | nil => exact h0
  | cons op rest ih => exact ih _ (sizeInv_applyOp h0 op)

/-- C8: for every sequence of pool operations (acquire, release,
eviction sweep, cleanup, shutdown) run from the initial registry, the
number of pooled connections stored under any single fingerprint key
never exceeds `MAX_POOL_SIZE`. -/
theorem claim_C8_pool_size_bounded (ops : List PoolOp) (key : List Char) :
    (getPool (runOps ops) key).length ≤ MAX_POOL_SIZE :=
  getPool_length_le (sizeInv_runOps ops) key

/-- A pool whose entries are all in use has no idle split. -/
theorem firstIdleSplit_none_of_all {pool : List PooledConnection}
    (h : ∀ c ∈ pool, c.inUse = true) : firstIdleSplit pool = none := by
  induction pool with
  | nil => rfl
  | cons c rest ih =>
    unfold firstIdleSplit
    rw [if_pos (h c (List.mem_cons_self _ _)), ih]
    intro x hx
    exact h x (List.mem_cons_of_mem _ hx)

/-- C9: the bounded polling wait of `waitForAvailableConnection`.
First conjunct: when every poll within the timeout observes no idle
entry, the call raises the connection error with code `POOL_TIMEOUT`.
Second conjunct: when some poll is the first to observe an idle entry,
that entry is claimed (marked in use, `lastUsed` stamped, use count
incremented) and returned.  Third conjunct: `getConnection` on a pool at
`MAX_POOL_SIZE` capacity with every entry in use enters this wait and,
with no concurrent release, ends in the `POOL_TIMEOUT` outcome. -/
theorem claim_C9_pool_wait_timeout :
    (∀ (now : Nat) (obs : List (Option (List PooledConnection))),
      (∀ o ∈ obs, noIdleObs o = true) →
      waitForAvailableConnection now obs = .error ("POOL_TIMEOUT".toList)) ∧
    (∀ (now : Nat) (pre rest : List (Option (List PooledConnection)))
      (pool pre2 post : List PooledConnection) (c : PooledConnection),
      (∀ o ∈ pre, noIdleObs o = true) →
      firstIdleSplit pool = some (pre2, c, post) →
      waitForAvailableConnection now (pre ++ some pool :: rest) =
        .ok (pre2 ++ markInUse c now :: post, c.adapterId)) ∧
    (∀ (cfg : DatabaseConfig) (hb cb : Bool) (now fid : Nat) (s : PoolState),
      (getPool s (getConfigKey cfg)).length = MAX_POOL_SIZE →
      (∀ c ∈ getPool s (getConfigKey cfg), c.inUse = true) →
      (acquireStep cfg hb cb now fid s).2 = .timedOut) := by
  refine ⟨?_, ?_, ?_⟩
  · intro now obs h
    induction obs with
    | nil => rfl
    | cons o rest ih =>
      have ho := h o (List.mem_cons_self _ _)
      have hrest : ∀ x ∈ rest, noIdleObs x = true := fun x hx =>
        h x (List.mem_cons_of_mem _ hx)
      cases o with
      | none => exact ih hrest
      | some pool =>
        have hall : ∀ c ∈ pool, c.inUse = true := by
          simpa [noIdleObs, List.all_eq_true] using ho
        simp only [waitForAvailableConnection,
          firstIdleSplit_none_of_all hall]
        exact ih hrest
  · intro now pre rest pool pre2 post c hpre hsplit
    induction pre with
    | nil =>
      simp only [List.nil_append, waitForAvailableConnection, hsplit]
    | cons o pre' ih =>
      have ho := hpre o (List.mem_cons_self _ _)
      have hrest : ∀ x ∈ pre', noIdleObs x = true := fun x hx =>
        hpre x (List.mem_cons_of_mem _ hx)
      cases o with
      | none => exact ih hrest
      | some p =>
        have hall : ∀ e ∈ p, e.inUse = true := by
          simpa [noIdleObs, List.all_eq_true] using ho
        have hd := ih hrest
        simp only [List.cons_append, waitForAvailableConnection,
          firstIdleSplit_none_of_all hall]
        exact hd
  · intro cfg hb cb now fid s hlen hall
    simp only [acquireStep, firstIdleSplit_none_of_all hall, hlen]
    simp

/-- C9 witness: a concrete run whose first two polls observe only busy
or absent pools and whose third observes an idle entry, which is then
claimed; a run whose polls all observe busy pools times out; and a full
pool of in-use entries makes `getConnection` time out. -/
theorem claim_C9_pool_wait_timeout_witness :
    waitForAvailableConnection 5
      [some [⟨1, 0, true, 1⟩], none, some [⟨2, 0, true, 3⟩, ⟨3, 1, false, 0⟩]] =
      .ok ([⟨2, 0, true, 3⟩, ⟨3, 5, true, 1⟩], 3) ∧
    waitForAvailableConnection 5 [some [⟨1, 0, true, 1⟩], none] =
      .error ("POOL_TIMEOUT".toList) ∧
    (acquireStep cfgW true true 7 9
      ⟨[("mysql://u@h:1/db".toList, List.replicate 10 ⟨1, 0, true, 1⟩)],
        true⟩).2 = .timedOut := by
  refine ⟨?_, ?_, ?_⟩
  · have := claim_C9_pool_wait_timeout.2.1 5
      [some [⟨1, 0, true, 1⟩], none] [] [⟨2, 0, true, 3⟩, ⟨3, 1, false, 0⟩]
      [⟨2, 0, true, 3⟩] [] ⟨3, 1, false, 0⟩ (by decide) (by decide)
    simpa [markInUse] using this
  · exact claim_C9_pool_wait_timeout.1 5 [some [⟨1, 0, true, 1⟩], none]
      (by decide)
  · exact claim_C9_pool_wait_timeout.2.2 cfgW true true 7 9 _ (by decide)
      (by decide)

/-- An in-place registry update does not change the key sequence. -/
theorem updateFirstPool_map_fst (key : List Char)
    (f : List PooledConnection → List PooledConnection) :
    ∀ l : List (List Char × List PooledConnection),
      (updateFirstPool key f l).map Prod.fst = l.map Prod.fst := by
  intro l
  induction l with
  | nil => rfl
  | cons kp rest ih =>
    unfold updateFirstPool
    by_cases hk : kp.1 = key
    · simp [hk]
    · simp [hk, ih]

/-- An in-place registry update leaves every other key's binding
unchanged. -/
theorem lookupPool_updateFirstPool_ne {key k : List Char}
    (f : List PooledConnection → List PooledConnection) (hk : k ≠ key) :
    ∀ l : List (List Char × List PooledConnection),
      lookupPool (updateFirstPool key f l) k = lookupPool l k := by
  intro l
  induction l with
  | nil => rfl
  | cons kp rest ih =>
    by_cases hkey : kp.1 = key
    · unfold updateFirstPool
      rw [if_pos hkey]
      have h1 : ¬ kp.1 = k := fun h => hk (by rw [← h, hkey])
      unfold lookupPool
      rw [if_neg (show ¬ ((kp.1, f kp.2) : _ × _).1 = k from h1), if_neg h1]
    · unfold updateFirstPool
      rw [if_neg hkey]
      unfold lookupPool
      by_cases hkk : kp.1 = k
      · rw [if_pos hkk, if_pos hkk]
      · rw [if_neg hkk, if_neg hkk]
        exact ih

/-- Updating an absent key is a no-op. -/
theorem updateFirstPool_of_not_has {key : List Char}
    (f : List PooledConnection → List PooledConnection) :
    ∀ {l : List (List Char × List PooledConnection)},
      hasPoolKey l key = false → updateFirstPool key f l = l := by
  intro l
  induction l with
  | nil => intro _; rfl
  | cons kp rest ih =>
    intro h
    unfold hasPoolKey at h
    by_cases hk : kp.1 = key
    · simp [hk] at h
    · rw [if_neg hk] at h
      unfold updateFirstPool
      rw [if_neg hk, ih h]

/-- Updating a present key rewrites exactly that binding. -/
theorem lookupPool_updateFirstPool_eq {key : List Char}
    (f : List PooledConnection → List PooledConnection) :
    ∀ {l : List (List Char × List PooledConnection)}
      {p : List PooledConnection}, lookupPool l key = some p →
      lookupPool (updateFirstPool key f l) key = some (f p) := by
  intro l
  induction l with
  | nil => intro p h; simp [lookupPool] at h
  | cons kp rest ih =>
    intro p h
    unfold lookupPool at h
    by_cases hk : kp.1 = key
    · rw [if_pos hk] at h
      injection h with h
      unfold updateFirstPool
      rw [if_pos hk]
      unfold lookupPool
      rw [if_pos hk, h]
    · rw [if_neg hk] at h
      unfold updateFirstPool
      rw [if_neg hk]
      unfold lookupPool
      rw [if_neg hk]
      exact ih h

/-- An update whose function fixes the stored pool is a no-op. -/
theorem updateFirstPool_eq_self {key : List Char}
    {f : List PooledConnection → List PooledConnection} :
    ∀ {l : List (List Char × List PooledConnection)},
      (∀ p, lookupPool l key = some p → f p = p) →
      updateFirstPool key f l = l := by
  intro l
  induction l with
  | nil => intro _; rfl
  | cons kp rest ih =>
    intro h
    unfold updateFirstPool
    by_cases hk : kp.1 = key
    · rw [if_pos hk]
      have : f kp.2 = kp.2 := by
        apply h
        unfold lookupPool
        rw [if_pos hk]
      rw [this]
    · rw [if_neg hk]
      rw [ih]
      intro p hp
      apply h
      unfold lookupPool
      rw [if_neg hk]
      exact hp

/-- Releasing an adapter held by no entry leaves the pool unchanged. -/
theorem releaseInPool_of_not_mem {aid now : Nat} :
    ∀ {l : List PooledConnection}, (∀ c ∈ l, c.adapterId ≠ aid) →
      releaseInPool aid now l = l := by
  intro l
  induction l with
  | nil => intro _; rfl
  | cons c rest ih =>
    intro h
    unfold releaseInPool
    rw [if_neg (h c (List.mem_cons_self _ _))]
    rw [ih fun x hx => h x (List.mem_cons_of_mem _ hx)]

/-- Releasing rewrites exactly the first entry holding the adapter. -/
theorem releaseInPool_split {aid now : Nat} {c : PooledConnection}
    (hc : c.adapterId = aid) :
    ∀ {pre : List PooledConnection} (post : List PooledConnection),
      (∀ e ∈ pre, e.adapterId ≠ aid) →
      releaseInPool aid now (pre ++ c :: post) =
        pre ++ { c with inUse := false, lastUsed := now } :: post := by
  intro pre
  induction pre with
  | nil =>
    intro post _
    simp only [List.nil_append]
    unfold releaseInPool
    rw [if_pos hc]
  | cons e pre' ih =>
    intro post h
    have he := h e (List.mem_cons_self _ _)
    show releaseInPool aid now (e :: (pre' ++ c :: post)) = _
    unfold releaseInPool
    rw [if_neg he, ih post fun x hx => h x (List.mem_cons_of_mem _ hx)]
    rfl

/-- C10: `releaseConnection(config, adapter)` changes at most the single
pooled entry whose adapter handle is identical to the released adapter
(adapter objects are created fresh per entry, so at most one entry holds
a given handle): it clears that entry's `inUse` flag and stamps its
`lastUsed`, preserves the registry's key sequence and the cleanup timer,
leaves every other pool's binding untouched, and is a silent no-op when
the config's fingerprint has no pool or the pool holds no such
adapter. -/
theorem claim_C10_release_frame (cfg : DatabaseConfig) (aid now : Nat)
    (s : PoolState) :
    ((releaseConnection cfg aid now s).pools.map Prod.fst =
      s.pools.map Prod.fst) ∧
    ((releaseConnection cfg aid now s).cleanupTimer = s.cleanupTimer) ∧
    (∀ k, k ≠ getConfigKey cfg →
      lookupPool (releaseConnection cfg aid now s).pools k =
        lookupPool s.pools k) ∧
    (hasPoolKey s.pools (getConfigKey cfg) = false →
      releaseConnection cfg aid now s = s) ∧
    ((∀ c ∈ getPool s (getConfigKey cfg), c.adapterId ≠ aid) →
      releaseConnection cfg aid now s = s) ∧
    (∀ pre post (c : PooledConnection),
      getPool s (getConfigKey cfg) = pre ++ c :: post →
      (∀ e ∈ pre, e.adapterId ≠ aid) → c.adapterId = aid →
      getPool (releaseConnection cfg aid now s) (getConfigKey cfg) =
        pre ++ { c with inUse := false, lastUsed := now } :: post) := by
  refine ⟨?_, rfl, ?_, ?_, ?_, ?_⟩
  · exact updateFirstPool_map_fst _ _ _
  · intro k hk
    exact lookupPool_updateFirstPool_ne _ hk _
  · intro h
    unfold releaseConnection
    rw [updateFirstPool_of_not_has _ h]
  · intro h
    unfold releaseConnection
    rw [updateFirstPool_eq_self]
    intro p hp
    apply releaseInPool_of_not_mem
    intro x hx
    apply h
    unfold getPool
    rw [hp]
    exact hx
  · intro pre post c hdec hpre hc
    have hlook : lookupPool s.pools (getConfigKey cfg) = some (pre ++ c :: post) := by
      unfold getPool at hdec
      cases hl : lookupPool s.pools (getConfigKey cfg) with
      | none => rw [hl] at hdec; simp at hdec
      | some p => rw [hl] at hdec; simp at hdec; rw [hdec]
    unfold releaseConnection getPool
    simp only
    rw [lookupPool_updateFirstPool_eq _ hlook]
    simp [releaseInPool_split hc post hpre]

/-- C10 witness: in a registry with one two-entry pool, releasing the
second entry's adapter rewrites exactly that entry, and releasing an
adapter no entry holds leaves the registry identical. -/
theorem claim_C10_release_frame_witness :
    getPool (releaseConnection cfgW 2 9 stateW) (getConfigKey cfgW) =
      [⟨1, 0, true, 1⟩, ⟨2, 9, false, 1⟩] ∧
    releaseConnection cfgW 7 9 stateW = stateW := by
  constructor
  · have := (claim_C10_release_frame cfgW 2 9 stateW).2.2.2.2.2
      [⟨1, 0, true, 1⟩] [] ⟨2, 0, true, 1⟩ (by decide) (by decide) rfl
    simpa using this
  · exact (claim_C10_release_frame cfgW 7 9 stateW).2.2.2.2.1 (by decide)

/-- The empty pattern occurs in every string. -/
theorem containsSeq_nil_pat : ∀ l : List Char, containsSeq [] l = true
  | [] => rfl
  | _ :: _ => by
    unfold containsSeq
    simp [isPrefixSeq]

/-- A prefix stays a prefix under extension on the right. -/
theorem isPrefixSeq_append : ∀ (pat l r : List Char),
    isPrefixSeq pat l = true → isPrefixSeq pat (l ++ r) = true := by
  intro pat
  induction pat with
  | nil => intro l r _; rfl
  | cons p ps ih =>
    intro l r h
    cases l with
    | nil => simp [isPrefixSeq] at h
    | cons c cs =>
      unfold isPrefixSeq at h
      rw [Bool.and_eq_true] at h
      simp only [List.cons_append]
      unfold isPrefixSeq
      rw [Bool.and_eq_true]
      exact ⟨h.1, ih cs r h.2⟩

/-- An occurrence survives prepending one character. -/
theorem containsSeq_cons {pat l : List Char} (c : Char)
    (h : containsSeq pat l = true) : containsSeq pat (c :: l) = true := by
  unfold containsSeq
  rw [Bool.or_eq_true]
  exact Or.inr h

/-- An occurrence survives extension on the right. -/
theorem containsSeq_append_right : ∀ (pat l r : List Char),
    containsSeq pat l = true → containsSeq pat (l ++ r) = true := by
  intro pat l
  induction l with
  | nil =>
    intro r h
    unfold containsSeq at h
    have hp : pat = [] := by
      cases pat with
      | nil => rfl
      | cons x xs => simp [List.isEmpty] at h
    subst hp
    exact containsSeq_nil_pat _
  | cons c l' ih =>
    intro r h
    unfold containsSeq at h
    rw [Bool.or_eq_true] at h
    simp only [List.cons_append]
    unfold containsSeq
    rw [Bool.or_eq_true]
    rcases h with h | h
    · left
      have := isPrefixSeq_append pat (c :: l') r h
      simpa using this
    · right
      exact ih r h

/-- An occurrence survives extension on the left. -/
theorem containsSeq_append_left : ∀ (pat l r : List Char),
    containsSeq pat r = true → containsSeq pat (l ++ r) = true := by
  intro pat l
  induction l with
  | nil => intro r h; exact h
  | cons c l' ih =>
    intro r h
    simp only [List.cons_append]
    exact containsSeq_cons c (ih r h)

/-- The " as " token of the left half occurs in the whole identifier. -/
theorem hasAsToken_append_right {a : List Char} (r : List Char)
    (h : hasAsToken a = true) : hasAsToken (a ++ r) = true := by
  unfold hasAsToken at h ⊢
  rw [List.map_append]
  exact containsSeq_append_right _ _ _ h

/-- The " as " token of the right half occurs in the whole identifier. -/
theorem hasAsToken_append_left {r : List Char} (l : List Char)
    (h : hasAsToken r = true) : hasAsToken (l ++ r) = true := by
  unfold hasAsToken at h ⊢
  rw [List.map_append]
  exact containsSeq_append_left _ _ _ h

/-- The " as " token survives prepending one character. -/
theorem hasAsToken_cons {r : List Char} (c : Char)
    (h : hasAsToken r = true) : hasAsToken (c :: r) = true := by
  unfold hasAsToken at h ⊢
  rw [List.map_cons]
  exact containsSeq_cons _ h

/-- Splitting a dot-free string is the identity. -/
theorem splitOnDot_no_dot : ∀ {l : List Char},
    (∀ c ∈ l, c ≠ '.') → splitOnDot l = [l] := by
  intro l
  induction l with
  | nil => intro _; rfl
  | cons c rest ih =>
    intro h
    unfold splitOnDot
    rw [if_neg (h c (List.mem_cons_self _ _))]
    rw [ih fun x hx => h x (List.mem_cons_of_mem _ hx)]

/-- Splitting at the first dot peels off the dot-free head. -/
theorem splitOnDot_append {x : List Char} (y : List Char)
    (hx : ∀ c ∈ x, c ≠ '.') :
    splitOnDot (x ++ '.' :: y) = x :: splitOnDot y := by
  induction x with
  | nil =>
    simp only [List.nil_append]
    simp [splitOnDot]
  | cons c x' ih =>
    simp only [List.cons_append]
    have hc := hx c (List.mem_cons_self _ _)
    simp only [splitOnDot, if_neg hc]
    rw [ih fun e he => hx e (List.mem_cons_of_mem _ he)]

/-- The sanitizer keeps the dot separating the two halves. -/
theorem filter_dot_append (a b : List Char) :
    (a ++ '.' :: b).filter isIdentChar =
      a.filter isIdentChar ++ '.' :: b.filter isIdentChar := by
  rw [List.filter_append, List.filter_cons]
  have : isIdentChar '.' = true := by decide
  rw [this]
  simp

/-- Sanitizing cannot introduce a dot. -/
theorem filter_no_dot {l : List Char} (h : l.contains '.' = false) :
    ∀ c ∈ l.filter isIdentChar, c ≠ '.' := by
  intro c hc he
  subst he
  have hm := (List.mem_filter.mp hc).1
  simp only [List.elem_eq_mem, decide_eq_false_iff_not] at h
  exact h hm

/-- Sanitizing cannot introduce any character. -/
theorem contains_filter_false {l : List Char} {x : Char}
    (h : l.contains x = false) (p : Char → Bool) :
    (l.filter p).contains x = false := by
  simp only [List.elem_eq_mem, decide_eq_false_iff_not] at h ⊢
  intro hm
  exact h (List.mem_filter.mp hm).1

/-- `escapeIdentifier` on a plain identifier: not `*`, no passthrough
marker, sanitized form dot-free and nonempty — sanitize then wrap. -/
theorem escape_wrap (d : DatabaseType) {s : List Char}
    (h1 : s.contains '(' = false) (h2 : hasAsToken s = false)
    (h3 : (s.filter isIdentChar).contains '.' = false)
    (h4 : s.filter isIdentChar ≠ []) :
    escapeIdentifier d s = .ok (wrapIdent d (s.filter isIdentChar)) := by
  have hstar : s ≠ "*".toList := by
    intro he
    rw [he] at h4
    exact h4 (by decide)
  unfold escapeIdentifier
  rw [if_neg hstar, h1, h2]
  have h5 : (s.filter isIdentChar).isEmpty = false := by
    cases hf : s.filter isIdentChar with
    | nil => exact absurd hf h4
    | cons x xs => rfl
  simp only [Bool.or_self, Bool.false_eq_true, if_false, h5, h3]

/-- `escapeIdentifier` on an identifier that sanitizes to empty (and is
not `*` nor a passthrough expression) throws the invalid-identifier
error. -/
theorem escape_empty (d : DatabaseType) {s : List Char}
    (hstar : s ≠ "*".toList)
    (h1 : s.contains '(' = false) (h2 : hasAsToken s = false)
    (h3 : s.filter isIdentChar = []) :
    escapeIdentifier d s = .error (.invalidIdentifier s) := by
  unfold escapeIdentifier
  rw [if_neg hstar, h1, h2]
  simp only [Bool.or_self, Bool.false_eq_true, if_false, h3]
  rfl

/-- `escapeIdentifier` passes `*` through. -/
theorem escape_star (d : DatabaseType) :
    escapeIdentifier d ("*".toList) = .ok ("*".toList) := by
  unfold escapeIdentifier
  rw [if_pos rfl]

/-- `escapeIdentifier` passes expressions containing `(` or the " as "
token through unchanged. -/
theorem escape_passthrough (d : DatabaseType) {s : List Char}
    (h : s.contains '(' = true ∨ hasAsToken s = true) :
    escapeIdentifier d s = .ok s := by
  unfold escapeIdentifier
  by_cases hstar : s = "*".toList
  · rw [if_pos hstar, hstar]
  · rw [if_neg hstar]
    have hc : (s.contains '(' || hasAsToken s) = true := by
      rcases h with h | h
      · rw [h]
        rfl
      · rw [h]
        simp
    simp only [hc, if_true]

/-- `escapeIdentifier` on a dotted identifier `a.b` (both halves
dot-free, neither sanitizing to empty, whole free of passthrough
markers) escapes component-wise and rejoins with the dot. -/
theorem escape_dotted (d : DatabaseType) {a b : List Char}
    (h5 : (a ++ '.' :: b).contains '(' = false)
    (h6 : hasAsToken (a ++ '.' :: b) = false)
    (h7 : a.contains '.' = false) (h8 : b.contains '.' = false)
    (h9 : a.filter isIdentChar ≠ []) (h10 : b.filter isIdentChar ≠ []) :
    escapeIdentifier d a = .ok (wrapIdent d (a.filter isIdentChar)) ∧
    escapeIdentifier d b = .ok (wrapIdent d (b.filter isIdentChar)) ∧
    escapeIdentifier d (a ++ '.' :: b) =
      .ok (wrapIdent d (a.filter isIdentChar) ++ '.' ::
        wrapIdent d (b.filter isIdentChar)) := by
  have hpar : ¬('(' ∈ a ++ '.' :: b) := by
    simp only [List.elem_eq_mem, decide_eq_false_iff_not] at h5
    exact h5
  have ha1 : a.contains '(' = false := by
    simp only [List.elem_eq_mem, decide_eq_false_iff_not]
    intro hm
    exact hpar (List.mem_append_left _ hm)
  have hb1 : b.contains '(' = false := by
    simp only [List.elem_eq_mem, decide_eq_false_iff_not]
    intro hm
    exact hpar (List.mem_append_right _ (List.mem_cons_of_mem _ hm))
  have ha2 : hasAsToken a = false := by
    cases hv : hasAsToken a with
    | false => rfl
    | true =>
      have := hasAsToken_append_right ('.' :: b) hv
      rw [h6] at this
      exact absurd this (by simp)
  have hb2 : hasAsToken b = false := by
    cases hv : hasAsToken b with
    | false => rfl
    | true =>
      have := hasAsToken_append_left a (hasAsToken_cons '.' hv)
      rw [h6] at this
      exact absurd this (by simp)
  have ha3 : (a.filter isIdentChar).contains '.' = false :=
    contains_filter_false h7 _
  have hb3 : (b.filter isIdentChar).contains '.' = false :=
    contains_filter_false h8 _
  refine ⟨escape_wrap d ha1 ha2 ha3 h9, escape_wrap d hb1 hb2 hb3 h10, ?_⟩
  have hstar : a ++ '.' :: b ≠ "*".toList := by
    intro he
    have hm : '.' ∈ a ++ '.' :: b :=
      List.mem_append_right _ (List.mem_cons_self _ _)
    rw [he] at hm
    simp at hm
  unfold escapeIdentifier
  rw [if_neg hstar, h5, h6]
  have hclean := filter_dot_append a b
  have hne : ((a ++ '.' :: b).filter isIdentChar).isEmpty = false := by
    rw [hclean]
    cases a.filter isIdentChar with
    | nil => rfl
    | cons x xs => rfl
  have hdot : ((a ++ '.' :: b).filter isIdentChar).contains '.' = true := by
    rw [hclean]
    simp [List.elem_eq_mem]
  simp only [Bool.or_self, Bool.false_eq_true, if_false, hne, hdot, if_true]
  rw [hclean, splitOnDot_append (b.filter isIdentChar) (filter_no_dot h7),
    splitOnDot_no_dot (filter_no_dot h8)]
  obtain ⟨xa, xsa, hea⟩ := List.exists_cons_of_ne_nil h9
  obtain ⟨xb, xsb, heb⟩ := List.exists_cons_of_ne_nil h10
  rw [hea, heb]
  show (Except.ok (List.intercalate (".".toList)
      [wrapIdent d (xa :: xsa), wrapIdent d (xb :: xsb)]) :
      Except BuildError (List Char)) = _
  simp [List.intercalate, List.intersperse]

/-- C5: for every dialect, `escapeIdentifier` passes the literal `*`
through; passes through unchanged any identifier containing `(` or the
case-insensitive token " as "; for an identifier that is none of these
and sanitizes (stripping characters outside `[A-Za-z0-9_$.]`) to empty,
throws the invalid-identifier build error; for a plain identifier whose
sanitized form is dot-free and nonempty, strips and wraps per dialect
(`wrapIdent`: backticks for mysql/sqlite, double quotes for postgresql,
brackets for mssql, upper-cased double quotes for oracle); and escapes a
dotted identifier `a.b` component-wise, rejoining with `.`. -/
theorem claim_C5_escape_identifier (d : DatabaseType) :
    (escapeIdentifier d ("*".toList) = .ok ("*".toList)) ∧
    (∀ s : List Char, s.contains '(' = true ∨ hasAsToken s = true →
      escapeIdentifier d s = .ok s) ∧
    (∀ s : List Char, s ≠ "*".toList → s.contains '(' = false →
      hasAsToken s = false → s.filter isIdentChar = [] →
      escapeIdentifier d s = .error (.invalidIdentifier s)) ∧
    (∀ s : List Char, s.contains '(' = false → hasAsToken s = false →
      (s.filter isIdentChar).contains '.' = false →
      s.filter isIdentChar ≠ [] →
      escapeIdentifier d s = .ok (wrapIdent d (s.filter isIdentChar))) ∧
    (∀ a b : List Char, (a ++ '.' :: b).contains '(' = false →
      hasAsToken (a ++ '.' :: b) = false →
      a.contains '.' = false → b.contains '.' = false →
      a.filter isIdentChar ≠ [] → b.filter isIdentChar ≠ [] →
      ∃ ea eb, escapeIdentifier d a = .ok ea ∧
        escapeIdentifier d b = .ok eb ∧
        escapeIdentifier d (a ++ '.' :: b) = .ok (ea ++ '.' :: eb)) := by
  refine ⟨escape_star d, ?_, ?_, ?_, ?_⟩
  · intro s h
    exact escape_passthrough d h
  · intro s hstar h1 h2 h3
    exact escape_empty d hstar h1 h2 h3
  · intro s h1 h2 h3 h4
    exact escape_wrap d h1 h2 h3 h4
  · intro a b h5 h6 h7 h8 h9 h10
    obtain ⟨ha, hb, hw⟩ := escape_dotted d h5 h6 h7 h8 h9 h10
    exact ⟨_, _, ha, hb, hw⟩

/-- C5 witness: `count(x)` (contains `(`) passes through; `%%%`
sanitizes to empty and errors; `na me` sanitizes to `name` and is
wrapped and upper-cased for oracle; `users.id` escapes component-wise
for mysql. -/
theorem claim_C5_escape_identifier_witness :
    escapeIdentifier .mysql ("count(x)".toList) = .ok ("count(x)".toList) ∧
    escapeIdentifier .postgresql ("%%%".toList) =
      .error (.invalidIdentifier ("%%%".toList)) ∧
    escapeIdentifier .oracle ("na me".toList) = .ok ("\"NAME\"".toList) ∧
    (∃ ea eb, escapeIdentifier .mysql ("users".toList) = .ok ea ∧
      escapeIdentifier .mysql ("id".toList) = .ok eb ∧
      escapeIdentifier .mysql ("users".toList ++ '.' :: "id".toList) =
        .ok (ea ++ '.' :: eb)) := by
  refine ⟨?_, ?_, ?_, ?_⟩
  · exact (claim_C5_escape_identifier .mysql).2.1 _ (Or.inl (by decide))
  · exact (claim_C5_escape_identifier .postgresql).2.2.1 _ (by decide)
      (by decide) (by decide) (by decide)
  · have h := (claim_C5_escape_identifier .oracle).2.2.2.1 ("na me".toList)
      (by decide) (by decide) (by decide) (by decide)
    rw [h]
    decide
  · exact (claim_C5_escape_identifier .mysql).2.2.2.2 ("users".toList)
      ("id".toList) (by decide) (by decide) (by decide) (by decide)
      (by decide) (by decide)

/-- C7 counterexample: on a builder whose `from()` was never called but
whose SELECT field `%%%` sanitizes to empty, `build()` throws the
invalid-identifier `Error` from the SELECT clause — rendered before the
FROM check — not the structural `MISSING_FROM_TABLE` error the claim
requires for every builder without `from()`. -/
theorem claim_C7_counterexample_select_error_first :
    build .mysql { initialBuilder with
        selectFields := [⟨"%%%".toList, none⟩] } =
      .error (.invalidIdentifier ("%%%".toList)) ∧
    build .mysql { initialBuilder with
        selectFields := [⟨"%%%".toList, none⟩] } ≠
      .error (.dbError ("MISSING_FROM_TABLE".toList)) := by
  decide

/-- C7, amended: provided the SELECT clause renders successfully,
`build()` on a builder whose `from()` was never called (empty
`fromTable`) throws the structural error with code `MISSING_FROM_TABLE`;
and whenever `build()` succeeds on a builder with no where and no having
conditions, the produced query is the concatenation of the SELECT, FROM,
JOIN, GROUP BY, ORDER BY, pagination and FOR UPDATE segments — it
contains no WHERE clause. -/
theorem claim_C7_missing_from_and_no_where :
    (∀ (d : DatabaseType) (s : QueryBuilderState) (sel : List Char),
      s.fromTable = [] → selectSegment d s = .ok sel →
      build d s = .error (.dbError ("MISSING_FROM_TABLE".toList))) ∧
    (∀ (d : DatabaseType) (s : QueryBuilderState) (r : QueryBuildResult),
      s.whereConditions = [] → s.havingConditions = [] →
      build d s = .ok r →
      ∃ sel fr jn gb ob, selectSegment d s = .ok sel ∧
        fromSegment d s = .ok fr ∧ joinSegment d s = .ok jn ∧
        groupSegment d s = .ok gb ∧ orderSegment d s = .ok ob ∧
        r.query = sel ++ fr ++ jn ++ gb ++ ob ++
          paginationSegment d s ++ forUpdateSegment d s) := by
  constructor
  · intro d s sel hf hsel
    unfold build
    rw [hsel, exceptBind_ok]
    rw [hf]
    rfl
  · intro d s r hw hh hb
    have hwseg : whereSegment d s = .ok ([], []) := by
      unfold whereSegment
      rw [hw]
      rfl
    have hhseg : ∀ p, havingSegment d s p = .ok ([], p) := by
      intro p
      unfold havingSegment
      rw [hh]
      rfl
    unfold build at hb
    cases hsel : selectSegment d s with
    | error e =>
      rw [hsel, exceptBind_error] at hb
      exact absurd hb (by simp)
    | ok sel =>
      rw [hsel, exceptBind_ok] at hb
      by_cases hf : s.fromTable.isEmpty = true
      · rw [if_pos hf] at hb
        exact absurd hb (by simp)
      · rw [if_neg hf] at hb
        cases hfr : fromSegment d s with
        | error e =>
          rw [hfr, exceptBind_error] at hb
          exact absurd hb (by simp)
        | ok fr =>
          rw [hfr, exceptBind_ok] at hb
          cases hjn : joinSegment d s with
          | error e =>
            rw [hjn, exceptBind_error] at hb
            exact absurd hb (by simp)
          | ok jn =>
            rw [hjn, exceptBind_ok] at hb
            rw [hwseg, exceptBind_ok] at hb
            cases hgb : groupSegment d s with
            | error e =>
              rw [hgb, exceptBind_error] at hb
              exact absurd hb (by simp)
            | ok gb =>
              rw [hgb, exceptBind_ok] at hb
              rw [hhseg, exceptBind_ok] at hb
              cases hob : orderSegment d s with
              | error e =>
                rw [hob, exceptBind_error] at hb
                exact absurd hb (by simp)
              | ok ob =>
                rw [hob, exceptBind_ok] at hb
                simp only [pure, Except.pure, Except.ok.injEq] at hb
                subst hb
                exact ⟨sel, fr, jn, gb, ob, rfl, rfl, rfl, rfl, rfl,
                  by simp⟩

/-- C7 witness: the freshly constructed builder (default `SELECT *`,
no `from()`) raises `MISSING_FROM_TABLE`; with `from('users')` set and
no conditions the mysql query is exactly the WHERE-free concatenation of
its segments. -/
theorem claim_C7_missing_from_and_no_where_witness :
    build .mysql initialBuilder =
      .error (.dbError ("MISSING_FROM_TABLE".toList)) ∧
    (∃ sel fr jn gb ob,
      selectSegment .mysql (initialBuilder.fromT ("users".toList) none) =
        .ok sel ∧
      fromSegment .mysql (initialBuilder.fromT ("users".toList) none) =
        .ok fr ∧
      joinSegment .mysql (initialBuilder.fromT ("users".toList) none) =
        .ok jn ∧
      groupSegment .mysql (initialBuilder.fromT ("users".toList) none) =
        .ok gb ∧
      orderSegment .mysql (initialBuilder.fromT ("users".toList) none) =
        .ok ob ∧
      (QueryBuildResult.mk ("SELECT * FROM `users`".toList) [] none).query =
        sel ++ fr ++ jn ++ gb ++ ob ++
          paginationSegment .mysql (initialBuilder.fromT ("users".toList) none) ++
          forUpdateSegment .mysql (initialBuilder.fromT ("users".toList) none)) := by
  constructor
  · exact claim_C7_missing_from_and_no_where.1 .mysql initialBuilder
      ("SELECT *".toList) (by decide) (by decide)
  · exact claim_C7_missing_from_and_no_where.2 .mysql
      (initialBuilder.fromT ("users".toList) none)
      ⟨"SELECT * FROM `users`".toList, [], none⟩
      (by decide) (by decide) (by decide)

end DbGen
